import Mathlib

/-!
Operations status derivation of mongodb_exporter.

Shallow embedding of the two implementations of the operations-status
derivation:

* `mongod.GetOperationsStatus`   (`collector/mongod/operations.go`)
* `exporter.getOperationsStatus` (`exporter/operations_collector.go`)

Go's `int64` / `time.Duration` values are integers; every arithmetic
operation on them is followed by an explicit wrap to the signed 64-bit range
(`wrap64`).  The outcomes of the two administrative queries are the arguments
of the embedded functions.  Both functions decode the two replies into one
`operationsList` value.  In the mongod variant `Run` resets that value before
it decodes, so each outcome is a failure or the records held afterwards.  In
the exporter variant `Decode` overwrites `Inprog` only when the reply has an
`inprog` key, so the records of the first reply stay in place when the second
reply has none.
-/

/-! ## Machine integers and `time.Duration` -/

/-- Two's complement wrap of an integer to the signed 64-bit range. -/
def wrap64 (x : Int) : Int :=
  (x + 9223372036854775808) % 18446744073709551616 - 9223372036854775808

/-- Range of Go's `int64`. -/
def isInt64 (x : Int) : Prop :=
  -9223372036854775808 ≤ x ∧ x < 9223372036854775808

instance (x : Int) : Decidable (isInt64 x) := by
  unfold isInt64; infer_instance

/-- Go's `*` on `int64` / `time.Duration`. -/
def mul64 (a b : Int) : Int := wrap64 (a * b)

/-- Go's `+` on `int64` / `time.Duration`. -/
def add64 (a b : Int) : Int := wrap64 (a + b)

/-- The constant `time.Microsecond`, in nanoseconds. -/
def Microsecond : Int := 1000

/-- The constant `time.Second`, in nanoseconds. -/
def Second : Int := 1000000000

/-! ## `collector/mongod/operations.go` -/

namespace mongod

/-- The anonymous struct of field `Progess` of `Operation`. -/
structure Progress where
  Done : Int
  Total : Int
deriving DecidableEq, Repr

/-- The struct `Operation`. -/
structure Operation where
  Op : String
  Ns : String
  SecsRunning : Int
  MicroSecsRunning : Int
  Msg : String
  Progess : Progress
deriving DecidableEq, Repr

/-- The struct `OperationsStatus`. -/
structure OperationsStatus where
  LongestQueryTime : Int
  IndexBuilding : Bool
  IndexBuildingProgressTotal : Int
  IndexBuildingProgressDone : Int
deriving DecidableEq, Repr

/-- Outcome of one `session.DB("admin").Run(cmd, &operationsList)`: an error,
or the records now held in `operationsList.Inprog`.  The target is reset
before the reply is decoded: a reply without an `inprog` key gives `ok []`. -/
inductive RunResult where
  | failed : RunResult
  | ok (inprog : List Operation) : RunResult
deriving DecidableEq, Repr

/-- The test of the `continue` at the head of the loop body. -/
def skipped (op : Operation) : Bool :=
  op.Op == "getmore" && op.Ns == "local.oplog.rs"

/-- The expression assigned to `optime` in the loop body. -/
def optime (op : Operation) : Int :=
  add64 (mul64 op.SecsRunning Second) (mul64 op.MicroSecsRunning Microsecond)

/-- One iteration of the loop over `operationsList.Inprog`. -/
def loopBody (longestQueryDuration : Int) (op : Operation) : Int :=
  if skipped op then longestQueryDuration
  else if optime op > longestQueryDuration then optime op
  else longestQueryDuration

/-- The whole loop, started from the zero value of `longestQueryDuration`. -/
def longestQuery (inprog : List Operation) : Int :=
  inprog.foldl loopBody 0

/-- The tail of `GetOperationsStatus`, after the second `Run` succeeded:
`inprog` is the new content of `operationsList.Inprog`. -/
def indexBuild (result : OperationsStatus) (inprog : List Operation) : OperationsStatus :=
  let result :=
    match inprog with
    | first :: _ =>
      { result with
        IndexBuildingProgressTotal := first.Progess.Total,
        IndexBuildingProgressDone := first.Progess.Done }
    | [] => result
  { result with IndexBuilding := decide (inprog.length > 0) }

/-- The function `GetOperationsStatus`; `none` is the `nil` result.  The
second `Run` is reached only when the first one succeeded. -/
def GetOperationsStatus (first second : RunResult) : Option OperationsStatus :=
  match first with
  | .failed => none
  | .ok inprog =>
    let longestQueryDuration := longestQuery inprog
    let result : OperationsStatus :=
      { LongestQueryTime := longestQueryDuration, IndexBuilding := false,
        IndexBuildingProgressTotal := 0, IndexBuildingProgressDone := 0 }
    match second with
    | .failed => none
    | .ok inprog2 => some (indexBuild result inprog2)

end mongod

/-! ## `exporter/operations_collector.go` -/

namespace exporter

/-- The anonymous struct of field `Progess` of `operation`. -/
structure progress where
  Done : Int
  Total : Int
deriving DecidableEq, Repr

/-- The struct `operation`. -/
structure operation where
  Op : String
  Ns : String
  SecsRunning : Int
  MicroSecsRunning : Int
  Msg : String
  Active : Bool
  Progess : progress
deriving DecidableEq, Repr

/-- The struct `operationsStatus`. -/
structure operationsStatus where
  LongestQueryTime : Int
  IndexBuilding : Bool
  IndexBuildingProgressTotal : Int
  IndexBuildingProgressDone : Int
deriving DecidableEq, Repr

/-- Outcome of one `RunCommand` followed by `Decode` into `operationsList`:
`commandError` when `singleResult.Err()` is not nil; `decodeError inprog` when
`Decode` returns an error, `inprog` being what `operationsList.Inprog` holds
afterwards; `decoded inprog` when both succeed and the reply carries the list
`inprog` under its `inprog` key; `decodedNoInprog` when both succeed and the
reply has no `inprog` key. -/
inductive singleResult where
  | commandError : singleResult
  | decodeError (inprog : List operation) : singleResult
  | decoded (inprog : List operation) : singleResult
  | decodedNoInprog : singleResult
deriving DecidableEq, Repr

/-- Content of `operationsList.Inprog` after one `RunCommand` and `Decode`,
`held` being its content before: a decoded `inprog` list replaces it, a reply
without an `inprog` key leaves it as it was. -/
def inprogAfter (held : List operation) : singleResult → List operation
  | .commandError => held
  | .decodeError inprog => inprog
  | .decoded inprog => inprog
  | .decodedNoInprog => held

/-- The expression assigned to `optime` in the loop body. -/
def optime (op : operation) : Int :=
  mul64 op.MicroSecsRunning Microsecond

/-- One iteration of the loop over `operationsList.Inprog`. -/
def loopBody (longestQueryDuration : Int) (op : operation) : Int :=
  if op.Active && decide (optime op > longestQueryDuration) then optime op
  else longestQueryDuration

/-- The whole loop, started from the zero value of `longestQueryDuration`. -/
def longestQuery (inprog : List operation) : Int :=
  inprog.foldl loopBody 0

/-- The tail of `getOperationsStatus`, after the second `Decode` succeeded:
`inprog` is the new content of `operationsList.Inprog`. -/
def indexBuild (result : operationsStatus) (inprog : List operation) : operationsStatus :=
  let result :=
    match inprog with
    | first :: _ =>
      { result with
        IndexBuildingProgressTotal := first.Progess.Total,
        IndexBuildingProgressDone := first.Progess.Done }
    | [] => result
  { result with IndexBuilding := decide (inprog.length > 0) }

/-- The function `getOperationsStatus`; `none` is the `nil` result.
`operationsList` starts empty and both replies are decoded into it.  A decode
error of the first response is only logged: the loop runs over whatever
`operationsList.Inprog` holds.  (`debugResult` only writes to the log.) -/
def getOperationsStatus (first second : singleResult) : Option operationsStatus :=
  match first with
  | .commandError => none
  | _ =>
    let operationsList := inprogAfter [] first
    let longestQueryDuration := longestQuery operationsList
    let result : operationsStatus :=
      { LongestQueryTime := longestQueryDuration, IndexBuilding := false,
        IndexBuildingProgressTotal := 0, IndexBuildingProgressDone := 0 }
    match second with
    | .commandError => none
    | .decodeError _ => none
    | _ => some (indexBuild result (inprogAfter operationsList second))

end exporter

/-! ## Reference notions used to state the properties -/

/-- The longest duration as the specification words it: `max(t1..tN)` of the
running times, and zero for `N = 0`. -/
def specLongest : List Int → Int
  | [] => 0
  | t :: ts => ts.foldl max t

/-- Running durations of the records of a mongod list that the loop does not skip. -/
def mongod.survivingTimes (inprog : List mongod.Operation) : List Int :=
  (inprog.filter (fun op => !mongod.skipped op)).map mongod.optime

/-- Running durations of the records of an exporter list whose `Active` flag is set. -/
def exporter.activeTimes (inprog : List exporter.operation) : List Int :=
  (inprog.filter (fun op => op.Active)).map exporter.optime

/-! ## Arithmetic of the 64-bit wrap -/

theorem wrap64_isInt64 (x : Int) : isInt64 (wrap64 x) := by
  unfold isInt64 wrap64
  omega

theorem wrap64_eq_self {x : Int} (h : isInt64 x) : wrap64 x = x := by
  unfold isInt64 at h
  unfold wrap64
  omega

theorem wrap64_add_wrap64 (a b : Int) : wrap64 (wrap64 a + wrap64 b) = wrap64 (a + b) := by
  unfold wrap64
  omega

theorem mongod_optime_eq_wrap (op : mongod.Operation) :
    mongod.optime op
      = wrap64 (op.SecsRunning * 1000000000 + op.MicroSecsRunning * 1000) := by
  simp only [mongod.optime, add64, mul64, Second, Microsecond, wrap64_add_wrap64]

theorem exporter_optime_eq_wrap (op : exporter.operation) :
    exporter.optime op = wrap64 (op.MicroSecsRunning * 1000) := by
  simp only [exporter.optime, mul64, Microsecond]

/-! ## Running maximum of a list -/

theorem foldl_max_init_le (ts : List Int) (a : Int) : a ≤ ts.foldl max a := by
  induction ts generalizing a with
  | nil => simp
  | cons t ts ih =>
    simp only [List.foldl_cons]
    exact le_trans (le_max_left a t) (ih (max a t))

theorem foldl_max_mem_le (ts : List Int) (a t : Int) (ht : t ∈ ts) : t ≤ ts.foldl max a := by
  induction ts generalizing a with
  | nil => simp at ht
  | cons u ts ih =>
    simp only [List.foldl_cons]
    rcases List.mem_cons.mp ht with h | h
    · subst h
      exact le_trans (le_max_right a t) (foldl_max_init_le ts (max a t))
    · exact ih (max a u) h

theorem foldl_max_attained (ts : List Int) (a : Int) :
    ts.foldl max a = a ∨ ts.foldl max a ∈ ts := by
  induction ts generalizing a with
  | nil => simp
  | cons u ts ih =>
    simp only [List.foldl_cons]
    rcases ih (max a u) with h | h
    · rcases max_choice a u with h2 | h2
      · left; rw [h, h2]
      · right; rw [h, h2]; exact List.mem_cons_self u ts
    · right; exact List.mem_cons_of_mem u h

theorem foldl_max_max (ts : List Int) (a b : Int) :
    ts.foldl max (max a b) = max a (ts.foldl max b) := by
  induction ts generalizing b with
  | nil => simp
  | cons u ts ih =>
    simp only [List.foldl_cons]
    rw [max_assoc, ih]

theorem foldl_max_zero_eq_specLongest (ts : List Int) :
    ts.foldl max 0 = max 0 (specLongest ts) := by
  cases ts with
  | nil => simp [specLongest]
  | cons t ts => simp only [List.foldl_cons, specLongest, foldl_max_max]

theorem specLongest_nonneg_of_mem (ts : List Int) (t : Int) (ht : t ∈ ts) (h0 : 0 ≤ t) :
    max 0 (specLongest ts) = specLongest ts := by
  rw [← foldl_max_zero_eq_specLongest]
  cases ts with
  | nil => simp at ht
  | cons u ts =>
    have h1 : 0 ≤ specLongest (u :: ts) := by
      simp only [specLongest]
      rcases List.mem_cons.mp ht with h | h
      · subst h
        exact le_trans h0 (foldl_max_init_le ts t)
      · exact le_trans h0 (foldl_max_mem_le ts u t h)
    rw [foldl_max_zero_eq_specLongest]
    exact max_eq_right h1

/-! ## The two loops as running maxima -/

theorem mongod_foldl_loopBody (inprog : List mongod.Operation) (a : Int) :
    inprog.foldl mongod.loopBody a = (mongod.survivingTimes inprog).foldl max a := by
  induction inprog generalizing a with
  | nil => simp [mongod.survivingTimes]
  | cons op ops ih =>
    simp only [List.foldl_cons, ih]
    by_cases hs : mongod.skipped op = true
    · simp [mongod.survivingTimes, mongod.loopBody, hs]
    · have hs2 : mongod.skipped op = false := by simpa using hs
      have hb : mongod.loopBody a op = max a (mongod.optime op) := by
        simp only [mongod.loopBody, hs2]
        rcases lt_or_le a (mongod.optime op) with h | h
        · simp [h, max_eq_right (le_of_lt h)]
        · simp [not_lt.mpr h, max_eq_left h]
      simp [mongod.survivingTimes, hs2, hb]

theorem mongod_longestQuery_eq (inprog : List mongod.Operation) :
    mongod.longestQuery inprog = (mongod.survivingTimes inprog).foldl max 0 :=
  mongod_foldl_loopBody inprog 0

theorem exporter_foldl_loopBody (inprog : List exporter.operation) (a : Int) :
    inprog.foldl exporter.loopBody a = (exporter.activeTimes inprog).foldl max a := by
  induction inprog generalizing a with
  | nil => simp [exporter.activeTimes]
  | cons op ops ih =>
    simp only [List.foldl_cons, ih]
    by_cases hs : op.Active = true
    · have hb : exporter.loopBody a op = max a (exporter.optime op) := by
        simp only [exporter.loopBody, hs]
        rcases lt_or_le a (exporter.optime op) with h | h
        · simp [h, max_eq_right (le_of_lt h)]
        · simp [not_lt.mpr h, max_eq_left h]
      simp [exporter.activeTimes, hs, hb]
    · have hs2 : op.Active = false := by simpa using hs
      simp [exporter.activeTimes, exporter.loopBody, hs2]

theorem exporter_longestQuery_eq (inprog : List exporter.operation) :
    exporter.longestQuery inprog = (exporter.activeTimes inprog).foldl max 0 :=
  exporter_foldl_loopBody inprog 0

theorem mongod_survivingTimes_remove (before after : List mongod.Operation)
    (r : mongod.Operation) (h : mongod.skipped r = true) :
    mongod.survivingTimes (before ++ r :: after) = mongod.survivingTimes (before ++ after) := by
  simp [mongod.survivingTimes, List.filter_cons, h]

theorem exporter_activeTimes_remove (before after : List exporter.operation)
    (r : exporter.operation) (h : r.Active = false) :
    exporter.activeTimes (before ++ r :: after) = exporter.activeTimes (before ++ after) := by
  simp [exporter.activeTimes, List.filter_cons, h]

theorem mongod_GetOperationsStatus_ok (inprog inprog2 : List mongod.Operation) :
    mongod.GetOperationsStatus (.ok inprog) (.ok inprog2)
      = some (mongod.indexBuild
          { LongestQueryTime := mongod.longestQuery inprog, IndexBuilding := false,
            IndexBuildingProgressTotal := 0, IndexBuildingProgressDone := 0 } inprog2) := rfl

theorem mongod_indexBuild_longest (result : mongod.OperationsStatus)
    (inprog : List mongod.Operation) :
    (mongod.indexBuild result inprog).LongestQueryTime = result.LongestQueryTime := by
  cases inprog <;> rfl

theorem exporter_indexBuild_longest (result : exporter.operationsStatus)
    (inprog : List exporter.operation) :
    (exporter.indexBuild result inprog).LongestQueryTime = result.LongestQueryTime := by
  cases inprog <;> rfl

/-! ## Longest running query in `mongod.GetOperationsStatus` -/

/-- C1: in `mongod.GetOperationsStatus`, when both queries succeed, a record
whose op is "getmore" and whose ns is "local.oplog.rs" never influences the
result: the status returned for a list containing such a record (anywhere,
with any running time) is the status returned for the list with that record
removed. -/
theorem mongod_replication_getmore_ignored
    (before after ib : List mongod.Operation) (r : mongod.Operation)
    (hop : r.Op = "getmore") (hns : r.Ns = "local.oplog.rs") :
    ∃ st, mongod.GetOperationsStatus (.ok (before ++ r :: after)) (.ok ib) = some st ∧
      mongod.GetOperationsStatus (.ok (before ++ after)) (.ok ib) = some st := by
  have hs : mongod.skipped r = true := by simp [mongod.skipped, hop, hns]
  refine ⟨_, rfl, ?_⟩
  simp only [mongod_GetOperationsStatus_ok, mongod_longestQuery_eq,
    mongod_survivingTimes_remove before after r hs]

/-- Scenario of C1: a 2 s query followed by a 999 s replication getmore gives
a longest query time of 2 s. -/
theorem mongod_replication_getmore_ignored_witness :
    (∃ st, mongod.GetOperationsStatus
        (.ok ([⟨"query", "db.c", 2, 0, "", ⟨0, 0⟩⟩]
          ++ ⟨"getmore", "local.oplog.rs", 999, 0, "", ⟨0, 0⟩⟩ :: [])) (.ok []) = some st ∧
      mongod.GetOperationsStatus (.ok ([⟨"query", "db.c", 2, 0, "", ⟨0, 0⟩⟩] ++ [])) (.ok [])
        = some st) ∧
    Option.map mongod.OperationsStatus.LongestQueryTime
      (mongod.GetOperationsStatus
        (.ok [⟨"query", "db.c", 2, 0, "", ⟨0, 0⟩⟩,
              ⟨"getmore", "local.oplog.rs", 999, 0, "", ⟨0, 0⟩⟩]) (.ok []))
      = some 2000000000 :=
  ⟨mongod_replication_getmore_ignored [⟨"query", "db.c", 2, 0, "", ⟨0, 0⟩⟩] [] []
      ⟨"getmore", "local.oplog.rs", 999, 0, "", ⟨0, 0⟩⟩ rfl rfl,
   by decide⟩

/-- Counterexample to C2 as stated: for the single non-excluded record with
secs_running = -1 the only running duration is -1 s, so `max(t1)` is -1 s, but
the longest query time returned is zero. -/
theorem mongod_longest_differs_from_max :
    mongod.GetOperationsStatus (.ok [⟨"query", "db.c", -1, 0, "", ⟨0, 0⟩⟩]) (.ok [])
      = some ⟨0, false, 0, 0⟩ ∧
    mongod.survivingTimes [⟨"query", "db.c", -1, 0, "", ⟨0, 0⟩⟩] = [-1000000000] ∧
    Option.map mongod.OperationsStatus.LongestQueryTime
      (mongod.GetOperationsStatus (.ok [⟨"query", "db.c", -1, 0, "", ⟨0, 0⟩⟩]) (.ok []))
      ≠ some (specLongest (mongod.survivingTimes [⟨"query", "db.c", -1, 0, "", ⟨0, 0⟩⟩])) := by
  decide

/-- C2 (amended): in `mongod.GetOperationsStatus`, when both queries succeed,
the longest query time is the larger of zero and `max(t1..tN)` over the running
durations of the records that are not excluded (zero for N = 0); it is
`max(t1..tN)` itself as soon as one of these durations is not negative. -/
theorem mongod_longest_eq_max_with_zero (inprog ib : List mongod.Operation) :
    Option.map mongod.OperationsStatus.LongestQueryTime
        (mongod.GetOperationsStatus (.ok inprog) (.ok ib))
      = some (max 0 (specLongest (mongod.survivingTimes inprog))) ∧
    ((∃ t ∈ mongod.survivingTimes inprog, 0 ≤ t) →
      Option.map mongod.OperationsStatus.LongestQueryTime
          (mongod.GetOperationsStatus (.ok inprog) (.ok ib))
        = some (specLongest (mongod.survivingTimes inprog))) := by
  have h : Option.map mongod.OperationsStatus.LongestQueryTime
        (mongod.GetOperationsStatus (.ok inprog) (.ok ib))
      = some (max 0 (specLongest (mongod.survivingTimes inprog))) := by
    simp only [mongod_GetOperationsStatus_ok, Option.map_some', mongod_indexBuild_longest,
      mongod_longestQuery_eq, foldl_max_zero_eq_specLongest]
  refine ⟨h, ?_⟩
  rintro ⟨t, ht, h0⟩
  rw [h, specLongest_nonneg_of_mem _ t ht h0]

/-- Instance of C2 (amended): records running 2 s and 7 s give 7 s. -/
theorem mongod_longest_eq_max_with_zero_witness :
    (∃ t ∈ mongod.survivingTimes
        [⟨"query", "db.c", 2, 0, "", ⟨0, 0⟩⟩, ⟨"insert", "db.c", 7, 0, "", ⟨0, 0⟩⟩], 0 ≤ t) ∧
    Option.map mongod.OperationsStatus.LongestQueryTime
        (mongod.GetOperationsStatus
          (.ok [⟨"query", "db.c", 2, 0, "", ⟨0, 0⟩⟩, ⟨"insert", "db.c", 7, 0, "", ⟨0, 0⟩⟩])
          (.ok []))
      = some (specLongest (mongod.survivingTimes
          [⟨"query", "db.c", 2, 0, "", ⟨0, 0⟩⟩, ⟨"insert", "db.c", 7, 0, "", ⟨0, 0⟩⟩])) ∧
    specLongest (mongod.survivingTimes
          [⟨"query", "db.c", 2, 0, "", ⟨0, 0⟩⟩, ⟨"insert", "db.c", 7, 0, "", ⟨0, 0⟩⟩])
      = 7000000000 :=
  ⟨⟨2000000000, by decide, by decide⟩,
   (mongod_longest_eq_max_with_zero
      [⟨"query", "db.c", 2, 0, "", ⟨0, 0⟩⟩, ⟨"insert", "db.c", 7, 0, "", ⟨0, 0⟩⟩] []).2
      ⟨2000000000, by decide, by decide⟩,
   by decide⟩

/-- Counterexample to C3 as stated: secs_running = 9223372037 is an int64
value, but 9223372037 s is more than an int64 count of nanoseconds can hold:
the computed duration is negative, not secs_running * 10^9 ns. -/
theorem mongod_optime_overflows :
    isInt64 9223372037 ∧
    mongod.optime ⟨"query", "db.c", 9223372037, 0, "", ⟨0, 0⟩⟩ = -9223372036709551616 ∧
    mongod.optime ⟨"query", "db.c", 9223372037, 0, "", ⟨0, 0⟩⟩
      ≠ 9223372037 * 1000000000 + 0 * 1000 := by
  decide

/-- C3 (amended): the running duration computed by `mongod.GetOperationsStatus`
for a record is secs_running * 10^9 + microsecs_running * 10^3 nanoseconds
reduced to the signed 64-bit range; it is exactly that number whenever the
number lies in the int64 range. -/
theorem mongod_optime_exact_when_in_range (op : mongod.Operation) :
    mongod.optime op = wrap64 (op.SecsRunning * 1000000000 + op.MicroSecsRunning * 1000) ∧
    (isInt64 (op.SecsRunning * 1000000000 + op.MicroSecsRunning * 1000) →
      mongod.optime op = op.SecsRunning * 1000000000 + op.MicroSecsRunning * 1000) :=
  ⟨mongod_optime_eq_wrap op, fun h => by rw [mongod_optime_eq_wrap, wrap64_eq_self h]⟩

/-- Scenario of C3: secs_running = 5 and microsecs_running = 250000 give
5.25 s, also as the longest query time of a sole record. -/
theorem mongod_optime_exact_when_in_range_witness :
    isInt64 ((5 : Int) * 1000000000 + 250000 * 1000) ∧
    mongod.optime ⟨"query", "db.c", 5, 250000, "", ⟨0, 0⟩⟩ = 5 * 1000000000 + 250000 * 1000 ∧
    Option.map mongod.OperationsStatus.LongestQueryTime
      (mongod.GetOperationsStatus (.ok [⟨"query", "db.c", 5, 250000, "", ⟨0, 0⟩⟩]) (.ok []))
      = some 5250000000 :=
  ⟨by decide,
   (mongod_optime_exact_when_in_range ⟨"query", "db.c", 5, 250000, "", ⟨0, 0⟩⟩).2 (by decide),
   by decide⟩

/-! ## Index build detection -/

theorem mongod_indexBuild_cons (result : mongod.OperationsStatus) (first : mongod.Operation)
    (rest : List mongod.Operation) :
    mongod.indexBuild result (first :: rest)
      = { LongestQueryTime := result.LongestQueryTime, IndexBuilding := true,
          IndexBuildingProgressTotal := first.Progess.Total,
          IndexBuildingProgressDone := first.Progess.Done } := by
  simp [mongod.indexBuild]

theorem exporter_indexBuild_cons (result : exporter.operationsStatus)
    (first : exporter.operation) (rest : List exporter.operation) :
    exporter.indexBuild result (first :: rest)
      = { LongestQueryTime := result.LongestQueryTime, IndexBuilding := true,
          IndexBuildingProgressTotal := first.Progess.Total,
          IndexBuildingProgressDone := first.Progess.Done } := by
  simp [exporter.indexBuild]

theorem mongod_status_cases (first second : mongod.RunResult) (st : mongod.OperationsStatus)
    (h : mongod.GetOperationsStatus first second = some st) :
    ∃ inprog inprog2, first = .ok inprog ∧ second = .ok inprog2 ∧
      st = mongod.indexBuild
        { LongestQueryTime := mongod.longestQuery inprog, IndexBuilding := false,
          IndexBuildingProgressTotal := 0, IndexBuildingProgressDone := 0 } inprog2 := by
  cases first with
  | failed => simp [mongod.GetOperationsStatus] at h
  | ok inprog =>
    cases second with
    | failed => simp [mongod.GetOperationsStatus] at h
    | ok inprog2 =>
      refine ⟨inprog, inprog2, rfl, rfl, ?_⟩
      simp only [mongod.GetOperationsStatus, Option.some.injEq] at h
      exact h.symm

theorem exporter_status_cases (first second : exporter.singleResult)
    (st : exporter.operationsStatus)
    (h : exporter.getOperationsStatus first second = some st) :
    st = exporter.indexBuild
        { LongestQueryTime := exporter.longestQuery (exporter.inprogAfter [] first),
          IndexBuilding := false,
          IndexBuildingProgressTotal := 0, IndexBuildingProgressDone := 0 }
        (exporter.inprogAfter (exporter.inprogAfter [] first) second) := by
  cases first <;> cases second <;>
    simp only [exporter.getOperationsStatus, Option.some.injEq, reduceCtorEq] at h <;>
    exact h.symm

/-- C4: in both `mongod.GetOperationsStatus` and `exporter.getOperationsStatus`,
when a status is returned and the index-build query returned at least one
record, IndexBuilding is true and the progress done / total counters are those
of the first record, whatever the later records are. -/
theorem index_build_first_record_wins :
    (∀ (q1 : mongod.RunResult) (first : mongod.Operation) (rest : List mongod.Operation)
        (st : mongod.OperationsStatus),
        mongod.GetOperationsStatus q1 (.ok (first :: rest)) = some st →
        st.IndexBuilding = true ∧
        st.IndexBuildingProgressDone = first.Progess.Done ∧
        st.IndexBuildingProgressTotal = first.Progess.Total) ∧
    (∀ (q1 : exporter.singleResult) (first : exporter.operation)
        (rest : List exporter.operation) (st : exporter.operationsStatus),
        exporter.getOperationsStatus q1 (.decoded (first :: rest)) = some st →
        st.IndexBuilding = true ∧
        st.IndexBuildingProgressDone = first.Progess.Done ∧
        st.IndexBuildingProgressTotal = first.Progess.Total) := by
  constructor
  · intro q1 first rest st h
    obtain ⟨inprog, inprog2, _, h2, hst⟩ := mongod_status_cases _ _ _ h
    cases h2
    rw [hst, mongod_indexBuild_cons]
    exact ⟨rfl, rfl, rfl⟩
  · intro q1 first rest st h
    have hst := exporter_status_cases _ _ _ h
    simp only [exporter.inprogAfter] at hst
    rw [hst, exporter_indexBuild_cons]
    exact ⟨rfl, rfl, rfl⟩

/-- Scenario of C4: progress records (40, 100) then (99, 100) give
IndexBuilding = true, done = 40, total = 100 in both implementations. -/
theorem index_build_first_record_wins_witness :
    (mongod.GetOperationsStatus (.ok [])
        (.ok (⟨"command", "db.c", 0, 0, "Index Build", ⟨40, 100⟩⟩
          :: [⟨"command", "db.d", 0, 0, "Index Build", ⟨99, 100⟩⟩]))
        = some ⟨0, true, 100, 40⟩ ∧
      ((⟨0, true, 100, 40⟩ : mongod.OperationsStatus).IndexBuilding = true ∧
        (⟨0, true, 100, 40⟩ : mongod.OperationsStatus).IndexBuildingProgressDone = 40 ∧
        (⟨0, true, 100, 40⟩ : mongod.OperationsStatus).IndexBuildingProgressTotal = 100)) ∧
    (exporter.getOperationsStatus (.decoded [])
        (.decoded (⟨"command", "db.c", 0, 0, "Index Build", true, ⟨40, 100⟩⟩
          :: [⟨"command", "db.d", 0, 0, "Index Build", true, ⟨99, 100⟩⟩]))
        = some ⟨0, true, 100, 40⟩ ∧
      ((⟨0, true, 100, 40⟩ : exporter.operationsStatus).IndexBuilding = true ∧
        (⟨0, true, 100, 40⟩ : exporter.operationsStatus).IndexBuildingProgressDone = 40 ∧
        (⟨0, true, 100, 40⟩ : exporter.operationsStatus).IndexBuildingProgressTotal = 100)) :=
  ⟨⟨by decide, index_build_first_record_wins.1 (.ok [])
      ⟨"command", "db.c", 0, 0, "Index Build", ⟨40, 100⟩⟩
      [⟨"command", "db.d", 0, 0, "Index Build", ⟨99, 100⟩⟩] ⟨0, true, 100, 40⟩ (by decide)⟩,
   ⟨by decide, index_build_first_record_wins.2 (.decoded [])
      ⟨"command", "db.c", 0, 0, "Index Build", true, ⟨40, 100⟩⟩
      [⟨"command", "db.d", 0, 0, "Index Build", true, ⟨99, 100⟩⟩] ⟨0, true, 100, 40⟩
      (by decide)⟩⟩

/-- Index-build replies that carry an empty `inprog` list: in both
implementations a returned status then has IndexBuilding = false and both
progress counters at 0, whatever the first query returned; and every returned
status with IndexBuilding = false has both progress counters at 0. -/
theorem index_build_empty_list_counters_zero :
    (∀ (q1 : mongod.RunResult) (st : mongod.OperationsStatus),
        mongod.GetOperationsStatus q1 (.ok []) = some st →
        st.IndexBuilding = false ∧
        st.IndexBuildingProgressDone = 0 ∧ st.IndexBuildingProgressTotal = 0) ∧
    (∀ (q1 : exporter.singleResult) (st : exporter.operationsStatus),
        exporter.getOperationsStatus q1 (.decoded []) = some st →
        st.IndexBuilding = false ∧
        st.IndexBuildingProgressDone = 0 ∧ st.IndexBuildingProgressTotal = 0) ∧
    (∀ (q1 q2 : mongod.RunResult) (st : mongod.OperationsStatus),
        mongod.GetOperationsStatus q1 q2 = some st → st.IndexBuilding = false →
        st.IndexBuildingProgressDone = 0 ∧ st.IndexBuildingProgressTotal = 0) ∧
    (∀ (q1 q2 : exporter.singleResult) (st : exporter.operationsStatus),
        exporter.getOperationsStatus q1 q2 = some st → st.IndexBuilding = false →
        st.IndexBuildingProgressDone = 0 ∧ st.IndexBuildingProgressTotal = 0) := by
  refine ⟨?_, ?_, ?_, ?_⟩
  · intro q1 st h
    obtain ⟨inprog, inprog2, _, h2, hst⟩ := mongod_status_cases _ _ _ h
    cases h2
    rw [hst]
    exact ⟨rfl, rfl, rfl⟩
  · intro q1 st h
    have hst := exporter_status_cases _ _ _ h
    simp only [exporter.inprogAfter] at hst
    rw [hst]
    exact ⟨rfl, rfl, rfl⟩
  · intro q1 q2 st h hb
    obtain ⟨inprog, inprog2, _, _, hst⟩ := mongod_status_cases _ _ _ h
    cases inprog2 with
    | nil => rw [hst]; exact ⟨rfl, rfl⟩
    | cons first rest => rw [hst, mongod_indexBuild_cons] at hb; simp at hb
  · intro q1 q2 st h hb
    have hst := exporter_status_cases _ _ _ h
    generalize exporter.inprogAfter (exporter.inprogAfter [] q1) q2 = inprog2 at hst
    cases inprog2 with
    | nil => rw [hst]; exact ⟨rfl, rfl⟩
    | cons first rest => rw [hst, exporter_indexBuild_cons] at hb; simp at hb

/-- C5 (failing input): the first reply holds one record with progress done 7,
total 9, and the index-build reply decodes without error but has no `inprog`
key, so it returned zero records.  `exporter.getOperationsStatus` then still
sees the record of the first reply and returns IndexBuilding = true, total 9,
done 7, where C5 asks for false, 0, 0;  `mongod.GetOperationsStatus`, whose
driver resets the list, returns false, 0, 0 for the same replies. -/
theorem exporter_index_build_from_stale_records :
    exporter.getOperationsStatus
        (.decoded [⟨"query", "db.c", 2, 2000000, "", true, ⟨7, 9⟩⟩]) .decodedNoInprog
      = some ⟨2000000000, true, 9, 7⟩ ∧
    exporter.getOperationsStatus
        (.decoded [⟨"query", "db.c", 2, 2000000, "", true, ⟨7, 9⟩⟩]) (.decoded [])
      = some ⟨2000000000, false, 0, 0⟩ ∧
    mongod.GetOperationsStatus (.ok [⟨"query", "db.c", 0, 2000000, "", ⟨7, 9⟩⟩]) (.ok [])
      = some ⟨2000000000, false, 0, 0⟩ := by
  decide

/-! ## Failure handling -/

/-- C6: `mongod.GetOperationsStatus` returns a status if and only if both
queries succeed; when the first query fails, or the first succeeds and the
second fails, it returns nil. -/
theorem mongod_no_status_unless_both_succeed (q1 q2 : mongod.RunResult) :
    ((mongod.GetOperationsStatus q1 q2).isSome = true ↔
      ∃ inprog inprog2, q1 = .ok inprog ∧ q2 = .ok inprog2) ∧
    mongod.GetOperationsStatus .failed q2 = none ∧
    (∀ inprog, mongod.GetOperationsStatus (.ok inprog) .failed = none) := by
  refine ⟨?_, rfl, fun _ => rfl⟩
  cases q1 with
  | failed => simp [mongod.GetOperationsStatus]
  | ok inprog =>
    cases q2 with
    | failed => simp [mongod.GetOperationsStatus]
    | ok inprog2 => simp [mongod.GetOperationsStatus]

/-- C7: `exporter.getOperationsStatus` returns nil exactly when the first
command errors, the second command errors, or the second response fails to
decode; after a decode failure of the first response alone it goes on with the
value that was decoded and returns the status it returns for that value. -/
theorem exporter_nil_exactly_on_abort (q1 q2 : exporter.singleResult) :
    (exporter.getOperationsStatus q1 q2 = none ↔
      (q1 = .commandError ∨ q2 = .commandError ∨ ∃ inprog, q2 = .decodeError inprog)) ∧
    (∀ inprog inprog2,
      (exporter.getOperationsStatus (.decodeError inprog) (.decoded inprog2)).isSome = true ∧
      exporter.getOperationsStatus (.decodeError inprog) (.decoded inprog2)
        = exporter.getOperationsStatus (.decoded inprog) (.decoded inprog2)) := by
  refine ⟨?_, fun _ _ => ⟨rfl, rfl⟩⟩
  cases q1 <;> cases q2 <;> simp [exporter.getOperationsStatus]

/-! ## Longest running query in `exporter.getOperationsStatus` -/

theorem exporter_getOperationsStatus_decoded (inprog inprog2 : List exporter.operation) :
    exporter.getOperationsStatus (.decoded inprog) (.decoded inprog2)
      = some (exporter.indexBuild
          { LongestQueryTime := exporter.longestQuery inprog, IndexBuilding := false,
            IndexBuildingProgressTotal := 0, IndexBuildingProgressDone := 0 } inprog2) := rfl

theorem exporter_getOperationsStatus_congr (inprog inprog' : List exporter.operation)
    (q2 : exporter.singleResult) (hq : q2 ≠ .decodedNoInprog)
    (h : exporter.longestQuery inprog = exporter.longestQuery inprog') :
    exporter.getOperationsStatus (.decoded inprog) q2
      = exporter.getOperationsStatus (.decoded inprog') q2 := by
  cases q2 with
  | commandError => rfl
  | decodeError _ => rfl
  | decoded ib => simp [exporter.getOperationsStatus, exporter.inprogAfter, h]
  | decodedNoInprog => exact absurd rfl hq

theorem exporter_longest_congr (inprog inprog' : List exporter.operation)
    (q2 : exporter.singleResult)
    (h : exporter.longestQuery inprog = exporter.longestQuery inprog') :
    Option.map exporter.operationsStatus.LongestQueryTime
        (exporter.getOperationsStatus (.decoded inprog) q2)
      = Option.map exporter.operationsStatus.LongestQueryTime
        (exporter.getOperationsStatus (.decoded inprog') q2) := by
  cases q2 with
  | commandError => rfl
  | decodeError _ => rfl
  | decoded ib =>
    simp [exporter.getOperationsStatus, exporter.inprogAfter, exporter_indexBuild_longest, h]
  | decodedNoInprog =>
    simp [exporter.getOperationsStatus, exporter.inprogAfter, exporter_indexBuild_longest, h]

/-- C8 (failing input): for a sole active record with secs_running = 5 and
microsecs_running = 250000, `exporter.getOperationsStatus` computes 0.25 s and
returns it as the longest query time, where C8 asks for 5.25 s: the seconds
component is left out of the sum.  `mongod.GetOperationsStatus` computes 5.25 s
for the same two values. -/
theorem exporter_optime_omits_seconds :
    exporter.optime ⟨"query", "db.c", 5, 250000, "", true, ⟨0, 0⟩⟩ = 250000000 ∧
    exporter.optime ⟨"query", "db.c", 5, 250000, "", true, ⟨0, 0⟩⟩
      ≠ 5 * 1000000000 + 250000 * 1000 ∧
    Option.map exporter.operationsStatus.LongestQueryTime
      (exporter.getOperationsStatus
        (.decoded [⟨"query", "db.c", 5, 250000, "", true, ⟨0, 0⟩⟩]) (.decoded []))
      = some 250000000 ∧
    mongod.optime ⟨"query", "db.c", 5, 250000, "", ⟨0, 0⟩⟩ = 5250000000 := by
  decide

/-- Counterexample to C9 as stated: for a sole active record with
microsecs_running = -1 the only computed duration is -1000 ns, so the maximum
over the active records is -1000 ns, but the longest query time returned is
zero. -/
theorem exporter_longest_differs_from_max :
    exporter.getOperationsStatus
        (.decoded [⟨"query", "db.c", 0, -1, "", true, ⟨0, 0⟩⟩]) (.decoded [])
      = some ⟨0, false, 0, 0⟩ ∧
    exporter.activeTimes [⟨"query", "db.c", 0, -1, "", true, ⟨0, 0⟩⟩] = [-1000] ∧
    Option.map exporter.operationsStatus.LongestQueryTime
      (exporter.getOperationsStatus
        (.decoded [⟨"query", "db.c", 0, -1, "", true, ⟨0, 0⟩⟩]) (.decoded []))
      ≠ some (specLongest
          (exporter.activeTimes [⟨"query", "db.c", 0, -1, "", true, ⟨0, 0⟩⟩])) := by
  decide

/-- C9 (amended): in `exporter.getOperationsStatus`, when a status is returned,
the longest query time is the larger of zero and the maximum of the durations
computed for the records with active = true (zero if there is none), and it is
that maximum itself as soon as one of these durations is not negative;
removing a record with active = false, or replacing it by another record with
active = false, never changes the longest query time, whatever the second
reply is, and changes nothing in the result when the second command fails or
its reply carries an `inprog` list. -/
theorem exporter_longest_over_active_records :
    (∀ inprog ib : List exporter.operation,
      Option.map exporter.operationsStatus.LongestQueryTime
          (exporter.getOperationsStatus (.decoded inprog) (.decoded ib))
        = some (max 0 (specLongest (exporter.activeTimes inprog))) ∧
      Option.map exporter.operationsStatus.LongestQueryTime
          (exporter.getOperationsStatus (.decodeError inprog) (.decoded ib))
        = some (max 0 (specLongest (exporter.activeTimes inprog))) ∧
      ((∃ t ∈ exporter.activeTimes inprog, 0 ≤ t) →
        Option.map exporter.operationsStatus.LongestQueryTime
            (exporter.getOperationsStatus (.decoded inprog) (.decoded ib))
          = some (specLongest (exporter.activeTimes inprog)))) ∧
    (∀ (before after : List exporter.operation) (r : exporter.operation)
        (q2 : exporter.singleResult), r.Active = false →
      Option.map exporter.operationsStatus.LongestQueryTime
          (exporter.getOperationsStatus (.decoded (before ++ r :: after)) q2)
        = Option.map exporter.operationsStatus.LongestQueryTime
          (exporter.getOperationsStatus (.decoded (before ++ after)) q2) ∧
      (q2 ≠ .decodedNoInprog →
        exporter.getOperationsStatus (.decoded (before ++ r :: after)) q2
          = exporter.getOperationsStatus (.decoded (before ++ after)) q2)) ∧
    (∀ (before after : List exporter.operation) (r r' : exporter.operation)
        (q2 : exporter.singleResult), r.Active = false → r'.Active = false →
      Option.map exporter.operationsStatus.LongestQueryTime
          (exporter.getOperationsStatus (.decoded (before ++ r :: after)) q2)
        = Option.map exporter.operationsStatus.LongestQueryTime
          (exporter.getOperationsStatus (.decoded (before ++ r' :: after)) q2) ∧
      (q2 ≠ .decodedNoInprog →
        exporter.getOperationsStatus (.decoded (before ++ r :: after)) q2
          = exporter.getOperationsStatus (.decoded (before ++ r' :: after)) q2)) := by
  have hrem : ∀ (before after : List exporter.operation) (r : exporter.operation),
      r.Active = false →
      exporter.longestQuery (before ++ r :: after) = exporter.longestQuery (before ++ after) := by
    intro before after r hr
    rw [exporter_longestQuery_eq, exporter_longestQuery_eq,
      exporter_activeTimes_remove before after r hr]
  refine ⟨?_, ?_, ?_⟩
  · intro inprog ib
    have h : Option.map exporter.operationsStatus.LongestQueryTime
          (exporter.getOperationsStatus (.decoded inprog) (.decoded ib))
        = some (max 0 (specLongest (exporter.activeTimes inprog))) := by
      simp only [exporter_getOperationsStatus_decoded, Option.map_some',
        exporter_indexBuild_longest, exporter_longestQuery_eq, foldl_max_zero_eq_specLongest]
    refine ⟨h, h, ?_⟩
    rintro ⟨t, ht, h0⟩
    rw [h, specLongest_nonneg_of_mem _ t ht h0]
  · intro before after r q2 hr
    exact ⟨exporter_longest_congr _ _ q2 (hrem before after r hr),
      fun hq => exporter_getOperationsStatus_congr _ _ q2 hq (hrem before after r hr)⟩
  · intro before after r r' q2 hr hr'
    have h := (hrem before after r hr).trans (hrem before after r' hr').symm
    exact ⟨exporter_longest_congr _ _ q2 h,
      fun hq => exporter_getOperationsStatus_congr _ _ q2 hq h⟩

/-- Instance of C9 (amended): an active record running 3 s and an inactive
one reporting 999 s give 3 s, with or without the inactive record, also when
the second reply has no `inprog` key. -/
theorem exporter_longest_over_active_records_witness :
    ((∃ t ∈ exporter.activeTimes
          [⟨"query", "db.c", 3, 3000000, "", true, ⟨0, 0⟩⟩,
           ⟨"query", "db.d", 999, 999000000, "", false, ⟨0, 0⟩⟩], 0 ≤ t) ∧
      Option.map exporter.operationsStatus.LongestQueryTime
          (exporter.getOperationsStatus
            (.decoded [⟨"query", "db.c", 3, 3000000, "", true, ⟨0, 0⟩⟩,
                       ⟨"query", "db.d", 999, 999000000, "", false, ⟨0, 0⟩⟩]) (.decoded []))
        = some (specLongest (exporter.activeTimes
            [⟨"query", "db.c", 3, 3000000, "", true, ⟨0, 0⟩⟩,
             ⟨"query", "db.d", 999, 999000000, "", false, ⟨0, 0⟩⟩]))) ∧
    exporter.getOperationsStatus
        (.decoded ([⟨"query", "db.c", 3, 3000000, "", true, ⟨0, 0⟩⟩]
          ++ ⟨"query", "db.d", 999, 999000000, "", false, ⟨0, 0⟩⟩ :: [])) (.decoded [])
      = exporter.getOperationsStatus
        (.decoded ([⟨"query", "db.c", 3, 3000000, "", true, ⟨0, 0⟩⟩] ++ [])) (.decoded []) ∧
    exporter.getOperationsStatus
        (.decoded ([⟨"query", "db.c", 3, 3000000, "", true, ⟨0, 0⟩⟩]
          ++ ⟨"query", "db.d", 999, 999000000, "", false, ⟨0, 0⟩⟩ :: [])) (.decoded [])
      = exporter.getOperationsStatus
        (.decoded ([⟨"query", "db.c", 3, 3000000, "", true, ⟨0, 0⟩⟩]
          ++ ⟨"insert", "db.e", 0, 1, "", false, ⟨0, 0⟩⟩ :: [])) (.decoded []) ∧
    Option.map exporter.operationsStatus.LongestQueryTime
        (exporter.getOperationsStatus
          (.decoded ([⟨"query", "db.c", 3, 3000000, "", true, ⟨0, 0⟩⟩]
            ++ ⟨"query", "db.d", 999, 999000000, "", false, ⟨0, 0⟩⟩ :: [])) .decodedNoInprog)
      = Option.map exporter.operationsStatus.LongestQueryTime
        (exporter.getOperationsStatus
          (.decoded ([⟨"query", "db.c", 3, 3000000, "", true, ⟨0, 0⟩⟩] ++ []))
          .decodedNoInprog) ∧
    exporter.getOperationsStatus
        (.decoded [⟨"query", "db.c", 3, 3000000, "", true, ⟨0, 0⟩⟩,
                   ⟨"query", "db.d", 999, 999000000, "", false, ⟨0, 0⟩⟩]) (.decoded [])
      = some ⟨3000000000, false, 0, 0⟩ :=
  ⟨⟨⟨3000000000, by decide, by decide⟩,
    (exporter_longest_over_active_records.1
      [⟨"query", "db.c", 3, 3000000, "", true, ⟨0, 0⟩⟩,
       ⟨"query", "db.d", 999, 999000000, "", false, ⟨0, 0⟩⟩] []).2.2
      ⟨3000000000, by decide, by decide⟩⟩,
   (exporter_longest_over_active_records.2.1
      [⟨"query", "db.c", 3, 3000000, "", true, ⟨0, 0⟩⟩] []
      ⟨"query", "db.d", 999, 999000000, "", false, ⟨0, 0⟩⟩ (.decoded []) rfl).2 (by decide),
   (exporter_longest_over_active_records.2.2
      [⟨"query", "db.c", 3, 3000000, "", true, ⟨0, 0⟩⟩] []
      ⟨"query", "db.d", 999, 999000000, "", false, ⟨0, 0⟩⟩
      ⟨"insert", "db.e", 0, 1, "", false, ⟨0, 0⟩⟩ (.decoded []) rfl rfl).2 (by decide),
   (exporter_longest_over_active_records.2.1
      [⟨"query", "db.c", 3, 3000000, "", true, ⟨0, 0⟩⟩] []
      ⟨"query", "db.d", 999, 999000000, "", false, ⟨0, 0⟩⟩ .decodedNoInprog rfl).1,
   by decide⟩

/-! ## The longest query time under wrapping arithmetic -/

theorem mongod_mem_survivingTimes (inprog : List mongod.Operation) (t : Int) :
    t ∈ mongod.survivingTimes inprog ↔
      ∃ op ∈ inprog, mongod.skipped op = false ∧ mongod.optime op = t := by
  simp [mongod.survivingTimes, List.mem_map, List.mem_filter, and_assoc]

theorem exporter_mem_activeTimes (inprog : List exporter.operation) (t : Int) :
    t ∈ exporter.activeTimes inprog ↔
      ∃ op ∈ inprog, op.Active = true ∧ exporter.optime op = t := by
  simp [exporter.activeTimes, List.mem_map, List.mem_filter, and_assoc]

theorem foldl_max_zero_isInt64 (ts : List Int) (h : ∀ t ∈ ts, isInt64 t) :
    isInt64 (ts.foldl max 0) := by
  rcases foldl_max_attained ts 0 with h0 | h0
  · rw [h0]; decide
  · exact h _ h0

/-- C10: with arbitrary secs_running / microsecs_running values and wrapping
64-bit duration arithmetic, the longest query time returned by
`mongod.GetOperationsStatus` is the maximum of zero and the computed durations
of the records that are not skipped: it is an int64 value, never negative, at
least the computed duration of every record that is not skipped, and zero or
the computed duration of one such record.  The same holds for
`exporter.getOperationsStatus` over the records with active = true. -/
theorem longest_is_max_of_zero_and_durations :
    (∀ (inprog : List mongod.Operation) (q2 : mongod.RunResult)
        (st : mongod.OperationsStatus),
        mongod.GetOperationsStatus (.ok inprog) q2 = some st →
        st.LongestQueryTime = (mongod.survivingTimes inprog).foldl max 0 ∧
        isInt64 st.LongestQueryTime ∧
        0 ≤ st.LongestQueryTime ∧
        (∀ op ∈ inprog, mongod.skipped op = false →
          mongod.optime op ≤ st.LongestQueryTime) ∧
        (st.LongestQueryTime = 0 ∨
          ∃ op ∈ inprog, mongod.skipped op = false ∧
            st.LongestQueryTime = mongod.optime op)) ∧
    (∀ (q1 q2 : exporter.singleResult) (inprog : List exporter.operation)
        (st : exporter.operationsStatus),
        (q1 = .decoded inprog ∨ q1 = .decodeError inprog) →
        exporter.getOperationsStatus q1 q2 = some st →
        st.LongestQueryTime = (exporter.activeTimes inprog).foldl max 0 ∧
        isInt64 st.LongestQueryTime ∧
        0 ≤ st.LongestQueryTime ∧
        (∀ op ∈ inprog, op.Active = true →
          exporter.optime op ≤ st.LongestQueryTime) ∧
        (st.LongestQueryTime = 0 ∨
          ∃ op ∈ inprog, op.Active = true ∧
            st.LongestQueryTime = exporter.optime op)) := by
  constructor
  · intro inprog q2 st h
    obtain ⟨inprog', inprog2, h1, _, hst⟩ := mongod_status_cases _ _ _ h
    cases h1
    have hl : st.LongestQueryTime = (mongod.survivingTimes inprog).foldl max 0 := by
      rw [hst, mongod_indexBuild_longest, ← mongod_longestQuery_eq]
    refine ⟨hl, ?_, ?_, ?_, ?_⟩
    · rw [hl]
      apply foldl_max_zero_isInt64
      intro t ht
      obtain ⟨op, _, _, rfl⟩ := (mongod_mem_survivingTimes inprog t).mp ht
      rw [mongod_optime_eq_wrap]
      exact wrap64_isInt64 _
    · rw [hl]; exact foldl_max_init_le _ 0
    · intro op hop hs
      rw [hl]
      exact foldl_max_mem_le _ 0 _ ((mongod_mem_survivingTimes inprog _).mpr ⟨op, hop, hs, rfl⟩)
    · rcases foldl_max_attained (mongod.survivingTimes inprog) 0 with h0 | h0
      · left; rw [hl, h0]
      · right
        obtain ⟨op, hop, hs, ht⟩ := (mongod_mem_survivingTimes inprog _).mp h0
        exact ⟨op, hop, hs, by rw [hl, ht]⟩
  · intro q1 q2 inprog st hq h
    have hst := exporter_status_cases _ _ _ h
    have hi : exporter.inprogAfter [] q1 = inprog := by
      rcases hq with hq | hq <;> rw [hq] <;> rfl
    rw [hi] at hst
    have hl : st.LongestQueryTime = (exporter.activeTimes inprog).foldl max 0 := by
      rw [hst, exporter_indexBuild_longest, ← exporter_longestQuery_eq]
    refine ⟨hl, ?_, ?_, ?_, ?_⟩
    · rw [hl]
      apply foldl_max_zero_isInt64
      intro t ht
      obtain ⟨op, _, _, rfl⟩ := (exporter_mem_activeTimes inprog t).mp ht
      rw [exporter_optime_eq_wrap]
      exact wrap64_isInt64 _
    · rw [hl]; exact foldl_max_init_le _ 0
    · intro op hop hs
      rw [hl]
      exact foldl_max_mem_le _ 0 _
        ((exporter_mem_activeTimes inprog _).mpr ⟨op, hop, hs, rfl⟩)
    · rcases foldl_max_attained (exporter.activeTimes inprog) 0 with h0 | h0
      · left; rw [hl, h0]
      · right
        obtain ⟨op, hop, hs, ht⟩ := (exporter_mem_activeTimes inprog _).mp h0
        exact ⟨op, hop, hs, by rw [hl, ht]⟩

/-- Instance of C10: a record whose duration wraps to a negative value and a
record running 4 s give 4 s in both implementations. -/
theorem longest_is_max_of_zero_and_durations_witness :
    (mongod.GetOperationsStatus
        (.ok [⟨"query", "db.c", 9223372037, 0, "", ⟨0, 0⟩⟩,
              ⟨"update", "db.c", 4, 0, "", ⟨0, 0⟩⟩]) (.ok [])
        = some ⟨4000000000, false, 0, 0⟩ ∧
      (⟨4000000000, false, 0, 0⟩ : mongod.OperationsStatus).LongestQueryTime
        = (mongod.survivingTimes
            [⟨"query", "db.c", 9223372037, 0, "", ⟨0, 0⟩⟩,
             ⟨"update", "db.c", 4, 0, "", ⟨0, 0⟩⟩]).foldl max 0 ∧
      0 ≤ (⟨4000000000, false, 0, 0⟩ : mongod.OperationsStatus).LongestQueryTime) ∧
    (exporter.getOperationsStatus
        (.decoded [⟨"query", "db.c", 0, 9223372036854776, "", true, ⟨0, 0⟩⟩,
                   ⟨"update", "db.c", 4, 4000000, "", true, ⟨0, 0⟩⟩]) (.decoded [])
        = some ⟨4000000000, false, 0, 0⟩ ∧
      (⟨4000000000, false, 0, 0⟩ : exporter.operationsStatus).LongestQueryTime
        = (exporter.activeTimes
            [⟨"query", "db.c", 0, 9223372036854776, "", true, ⟨0, 0⟩⟩,
             ⟨"update", "db.c", 4, 4000000, "", true, ⟨0, 0⟩⟩]).foldl max 0 ∧
      0 ≤ (⟨4000000000, false, 0, 0⟩ : exporter.operationsStatus).LongestQueryTime) :=
  ⟨⟨by decide,
    (longest_is_max_of_zero_and_durations.1
      [⟨"query", "db.c", 9223372037, 0, "", ⟨0, 0⟩⟩, ⟨"update", "db.c", 4, 0, "", ⟨0, 0⟩⟩]
      (.ok []) ⟨4000000000, false, 0, 0⟩ (by decide)).1,
    (longest_is_max_of_zero_and_durations.1
      [⟨"query", "db.c", 9223372037, 0, "", ⟨0, 0⟩⟩, ⟨"update", "db.c", 4, 0, "", ⟨0, 0⟩⟩]
      (.ok []) ⟨4000000000, false, 0, 0⟩ (by decide)).2.2.1⟩,
   ⟨by decide,
    (longest_is_max_of_zero_and_durations.2
      (.decoded [⟨"query", "db.c", 0, 9223372036854776, "", true, ⟨0, 0⟩⟩,
                 ⟨"update", "db.c", 4, 4000000, "", true, ⟨0, 0⟩⟩]) (.decoded []) _
      ⟨4000000000, false, 0, 0⟩ (Or.inl rfl) (by decide)).1,
    (longest_is_max_of_zero_and_durations.2
      (.decoded [⟨"query", "db.c", 0, 9223372036854776, "", true, ⟨0, 0⟩⟩,
                 ⟨"update", "db.c", 4, 4000000, "", true, ⟨0, 0⟩⟩]) (.decoded []) _
      ⟨4000000000, false, 0, 0⟩ (Or.inl rfl) (by decide)).2.2.1⟩⟩
